import Mathlib

/-!
Shallow embedding of the Phantom217/chip8 CHIP-8 interpreter core
(files `src/types.rs`, `src/memory.rs`, `src/register.rs`, `src/opcode.rs`,
`src/instruction.rs`, `src/error.rs`), together with theorems settling the
specification claims about it.

Machine integers are embedded as `Nat` with the intended width stated as a
hypothesis (`< 2^8`, `< 2^16`) where it matters; Rust's `as u8` truncating
cast is embedded as `% 256`.  Array indexing, which panics when out of
bounds in Rust, is embedded as an `Option`-returning lookup.  A function
whose Rust body is `todo!()` (an unconditional panic) is embedded as a
function returning `none`.
-/

/-- Embeds the type alias `Byte = u8` from `types.rs`: a byte value, carried
as a natural number intended to lie below 256. -/
abbrev Byte := Nat

/-- Embeds `struct Addr(u16)` from `types.rs`: an absolute memory address. -/
structure Addr where
  val : Nat
  deriving Repr, DecidableEq

/-- Embeds `impl From<u16> for Addr` from `types.rs`:
`fn from(bits: u16) -> Self { Self(bits & 0x0FFF) }`. -/
def Addr.fromU16 (bits : Nat) : Addr :=
  ⟨bits &&& 0x0FFF⟩

/-- Embeds `Addr::new` from `types.rs`, which delegates to `Self::from(bits)`. -/
def Addr.new (bits : Nat) : Addr :=
  Addr.fromU16 bits

/-- Embeds `impl From<Addr> for usize` from `types.rs`: `addr.0 as usize`. -/
def Addr.toUsize (addr : Addr) : Nat :=
  addr.val

/-- Embeds `struct Nibble(u8)` from `types.rs`: a 4-bit value. -/
structure Nibble where
  val : Nat
  deriving Repr, DecidableEq

/-- Embeds `impl From<u8> for Nibble` from `types.rs`:
`fn from(bits: u8) -> Self { Self(bits & 0x0F) }`. -/
def Nibble.fromU8 (bits : Nat) : Nibble :=
  ⟨bits &&& 0x0F⟩

/-- Embeds `Nibble::new` from `types.rs`, which delegates to `Self::from(bits)`. -/
def Nibble.new (bits : Nat) : Nibble :=
  Nibble.fromU8 bits

/-- Embeds `impl From<Nibble> for usize` from `types.rs`: `nibble.0 as usize`. -/
def Nibble.toUsize (nibble : Nibble) : Nat :=
  nibble.val

/-- Embeds `Ram::RAM_SIZE` from `memory.rs`: `0x1000` (4096) bytes. -/
def RAM_SIZE : Nat := 0x1000

/-- Embeds `struct Ram([u8; Self::RAM_SIZE])` from `memory.rs`. -/
structure Ram where
  data : List Byte
  size_eq : data.length = RAM_SIZE

/-- Embeds `impl Default for Ram` from `memory.rs`:
`Self([0x00; Self::RAM_SIZE])`. -/
def Ram.default : Ram :=
  ⟨List.replicate RAM_SIZE 0x00, List.length_replicate ..⟩

/-- Embeds `Ram::new` from `memory.rs`, which returns `Self::default()`. -/
def Ram.new : Ram :=
  Ram.default

/-- Embeds `impl Index<usize> for Ram` from `memory.rs`: `&self.0[index]`.
Rust panics when `index` is out of bounds; that case is embedded as `none`. -/
def Ram.get? (ram : Ram) (index : Nat) : Option Byte :=
  ram.data[index]?

/-- Embeds `impl IndexMut<usize> for Ram` from `memory.rs`:
`&mut self.0[index]`, used for a single-byte write.  Rust panics when
`index` is out of bounds; that case is embedded as `none`. -/
def Ram.set? (ram : Ram) (index : Nat) (value : Byte) : Option Ram :=
  if h : index < ram.data.length then
    some ⟨ram.data.set index value, by rw [List.length_set]; exact ram.size_eq⟩
  else
    none

/-- Embeds `PROGRAM_START` from `register.rs`: `0x200`, the memory address
at which program (ROM) data starts. -/
def PROGRAM_START : Nat := 0x200

/-- Embeds `Regs::NUM_GP_REGS` from `register.rs`: 16 general-purpose
registers. -/
def NUM_GP_REGS : Nat := 16

/-- Embeds `struct Regs([u8; Self::NUM_GP_REGS])` from `register.rs`. -/
structure Regs where
  data : List Byte
  size_eq : data.length = NUM_GP_REGS

/-- Embeds `impl Default for Regs` from `register.rs`:
`Self([0x00; Self::NUM_GP_REGS])`. -/
def Regs.default : Regs :=
  ⟨List.replicate NUM_GP_REGS 0x00, List.length_replicate ..⟩

/-- Embeds `Regs::new` from `register.rs`, which returns `Self::default()`. -/
def Regs.new : Regs :=
  Regs.default

/-- Embeds `impl Index<u8> for Regs` from `register.rs`:
`&self.0[index as usize]`.  Rust panics when `index` is out of bounds;
that case is embedded as `none`. -/
def Regs.getU8? (regs : Regs) (index : Nat) : Option Byte :=
  regs.data[index]?

/-- Embeds `impl IndexMut<u8> for Regs` from `register.rs`. -/
def Regs.setU8? (regs : Regs) (index : Nat) (value : Byte) : Option Regs :=
  if h : index < regs.data.length then
    some ⟨regs.data.set index value, by rw [List.length_set]; exact regs.size_eq⟩
  else
    none

/-- Embeds `impl Index<Nibble> for Regs` from `register.rs`:
`&self.0[usize::from(index)]`. -/
def Regs.getNib? (regs : Regs) (index : Nibble) : Option Byte :=
  regs.data[index.toUsize]?

/-- Embeds `impl IndexMut<Nibble> for Regs` from `register.rs`. -/
def Regs.setNib? (regs : Regs) (index : Nibble) (value : Byte) : Option Regs :=
  if h : index.toUsize < regs.data.length then
    some ⟨regs.data.set index.toUsize value, by rw [List.length_set]; exact regs.size_eq⟩
  else
    none

/-- Embeds `struct OpCode(u16)` from `opcode.rs`: the raw 16-bit opcode. -/
structure OpCode where
  val : Nat
  deriving Repr, DecidableEq

/-- Embeds `impl From<(u8, u8)> for OpCode` from `opcode.rs`:
`Self((b1 << 8) | b2)` where `b1`, `b2` are the two bytes widened to `u16`. -/
def OpCode.fromBytes (b1 b2 : Byte) : OpCode :=
  ⟨(b1 <<< 8) ||| b2⟩

/-- Embeds `impl From<OpCode> for (u8, u8, u8, u8)` from `opcode.rs`: the
four nibbles, each computed as a mask, a shift, and an `as u8` cast
(embedded as `% 256`). -/
def OpCode.toTuple (opcode : OpCode) : Byte × Byte × Byte × Byte :=
  (((opcode.val &&& 0xF000) >>> 12) % 256,
   ((opcode.val &&& 0x0F00) >>> 8) % 256,
   ((opcode.val &&& 0x00F0) >>> 4) % 256,
   ((opcode.val &&& 0x000F) >>> 0) % 256)

/-- Embeds `OpCode::to_match_tuple` from `opcode.rs`, which delegates to
`self.into()`, i.e. the `From<OpCode> for (u8, u8, u8, u8)` conversion. -/
def OpCode.to_match_tuple (opcode : OpCode) : Byte × Byte × Byte × Byte :=
  opcode.toTuple

/-- Embeds `enum Operands` from `opcode.rs`. -/
inductive Operands where
  | Empty : Operands
  | Address (nnn : Nat) : Operands
  | Reg (x : Byte) : Operands
  | Regs (x y : Byte) : Operands
  | RegAndConst (x kk : Byte) : Operands
  | RegsAndConst (x y n : Byte) : Operands
  deriving Repr, DecidableEq

/-- Embeds the machine state `struct Chip8` (fields `mem`/`ram` and `regs`
in `lib.rs`; the instruction handlers in `instruction.rs` additionally
access a program counter `chip8.pc`, so it is carried here as well, per
the spec's register-file contract). -/
structure Chip8 where
  ram : Ram
  regs : Regs
  pc : Nat

/-- Modelled from the spec: machine initialization ("Memory and Registers
are created once at machine initialization (zero-filled, PC set to program
start)").  The corresponding constructor `Chip8::new` is called from
`main.rs` but its definition is not under `src/`. -/
def Chip8.init : Chip8 :=
  ⟨Ram.new, Regs.new, PROGRAM_START⟩

/-- Embeds the type alias `InstrFn = fn(&mut Chip8, Operands)` from
`instruction.rs`.  A handler whose body is `todo!()` panics, which is
embedded as returning `none`; a normally returning handler yields the
updated state. -/
abbrev InstrFn := Chip8 → Operands → Option Chip8

/-- Embeds `struct Instruction` from `instruction.rs`. -/
structure Instruction where
  opcode : OpCode
  name : String
  operands : Operands
  instruction : InstrFn

/-- Embeds `Instruction::new` from `instruction.rs`. -/
def Instruction.new (opcode : OpCode) (name : String) (ops : Operands)
    (inst : InstrFn) : Instruction :=
  ⟨opcode, name, ops, inst⟩

/-- Embeds `not_implemented` from `instruction.rs`.  Its Rust body re-reads
the opcode at `pc - 2` only to format a warning log message and performs no
state mutation, so it is embedded as returning the state unchanged. -/
def not_implemented : InstrFn :=
  fun chip8 _ => some chip8

/-- Embeds `sys` from `instruction.rs`; its body is `todo!()`. -/
def sys : InstrFn :=
  fun _ _ => none

/-- Embeds `clear` from `instruction.rs`; its body is `todo!()`. -/
def clear : InstrFn :=
  fun _ _ => none

/-- Embeds `r#return` from `instruction.rs`; its body is `todo!()`. -/
def ret : InstrFn :=
  fun _ _ => none

/-- Embeds `jump` from `instruction.rs` (the documented `1nnn - JP addr`
handler); its body is `todo!()`. -/
def jump : InstrFn :=
  fun _ _ => none

/-- Embeds `add` from `instruction.rs` (the documented `8xy4 - ADD Vx, Vy`
handler); its body is `todo!()`. -/
def add : InstrFn :=
  fun _ _ => none

/-- Embeds `OpCode::decode` from `opcode.rs`: the pattern match on
`to_match_tuple`, with arms `(0x0,0x0,0xE,0x0)`, `(0x0,0x0,0xE,0xE)`,
`(0x0,_,_,_)` and a logging catch-all. -/
def OpCode.decode (opcode : OpCode) : Instruction :=
  match opcode.to_match_tuple with
  | (0x0, 0x0, 0xE, 0x0) => Instruction.new opcode "CLS" Operands.Empty clear
  | (0x0, 0x0, 0xE, 0xE) => Instruction.new opcode "RET" Operands.Empty ret
  | (0x0, _, _, _) => Instruction.new opcode "SYS" Operands.Empty sys
  | _ => Instruction.new opcode "???" Operands.Empty not_implemented

/-- Error raised by the bulk load operation; the spec's error taxonomy
names this case "Capacity — ROM larger than available memory". -/
inductive LoadError where
  | capacity : LoadError
  deriving Repr, DecidableEq

/-- Modelled from the spec: the bulk program-load operation
("`load(bytes, start_addr)` for bulk program loading. `load` fails with a
capacity error if `bytes.len() > (total_size - start_addr)`; it never
partially writes on failure").  The function itself is not under `src/`
(only its caller `emu.load_rom` in `main.rs` and the error enum in
`error.rs` are). -/
def Ram.load (ram : Ram) (bytes : List Byte) (start_addr : Nat) :
    Except LoadError Ram :=
  if h : bytes.length > RAM_SIZE - start_addr then
    Except.error LoadError.capacity
  else
    Except.ok ⟨ram.data.take start_addr ++ bytes
                 ++ ram.data.drop (start_addr + bytes.length), by
      have hlen := ram.size_eq
      simp only [List.length_append, List.length_take, List.length_drop, hlen]
      unfold RAM_SIZE at *
      omega⟩

/-! ### General bitwise helper lemmas -/

/-- Masking with a nibble mask shifted into position and then shifting down
is the same as shifting down first and masking with `0xF`. -/
theorem and_mask_shiftRight (w k : Nat) :
    (w &&& (0xF <<< k)) >>> k = (w >>> k) &&& 0xF := by
  apply Nat.eq_of_testBit_eq
  intro i
  simp only [Nat.testBit_shiftRight, Nat.testBit_and, Nat.testBit_shiftLeft]
  congr 1
  simp

/-- Bitwise or of a left-shifted value with a value small enough to fit in
the shifted-away bits is addition. -/
theorem lor_shiftLeft_eq_add {k b : Nat} (a : Nat) (hb : b < 2 ^ k) :
    (a <<< k) ||| b = 2 ^ k * a + b := by
  rw [Nat.shiftLeft_eq, Nat.mul_comm, ← Nat.mul_add_lt_is_or hb]

/-- Masking with `0xF` is reduction modulo 16. -/
theorem and_fifteen (x : Nat) : x &&& 0xF = x % 16 := by
  have h := Nat.and_pow_two_sub_one_eq_mod x 4
  norm_num at h
  exact h

/-- Masking with `0x0FFF` is reduction modulo 4096. -/
theorem and_fff (x : Nat) : x &&& 0x0FFF = x % 4096 := by
  have h := Nat.and_pow_two_sub_one_eq_mod x 12
  norm_num at h
  exact h

/-! ### Helper lemmas about the opcode nibble decomposition -/

/-- First component of the nibble decomposition of a big-endian byte pair. -/
theorem byte_pair_nib0 (hi lo : Nat) (hhi : hi < 256) (hlo : lo < 256) :
    (((hi <<< 8 ||| lo) &&& 0xF000) >>> 12) % 256 = hi >>> 4 := by
  rw [show (0xF000 : Nat) = 0xF <<< 12 from by decide, and_mask_shiftRight,
    lor_shiftLeft_eq_add hi (show lo < 2 ^ 8 by omega), and_fifteen,
    Nat.shiftRight_eq_div_pow, Nat.shiftRight_eq_div_pow]
  norm_num
  omega

/-- Second component of the nibble decomposition of a big-endian byte pair. -/
theorem byte_pair_nib1 (hi lo : Nat) (hlo : lo < 256) :
    (((hi <<< 8 ||| lo) &&& 0x0F00) >>> 8) % 256 = hi &&& 0xF := by
  rw [show (0x0F00 : Nat) = 0xF <<< 8 from by decide, and_mask_shiftRight,
    lor_shiftLeft_eq_add hi (show lo < 2 ^ 8 by omega), and_fifteen, and_fifteen,
    Nat.shiftRight_eq_div_pow]
  norm_num
  omega

/-- Third component of the nibble decomposition of a big-endian byte pair. -/
theorem byte_pair_nib2 (hi lo : Nat) (hlo : lo < 256) :
    (((hi <<< 8 ||| lo) &&& 0x00F0) >>> 4) % 256 = lo >>> 4 := by
  rw [show (0x00F0 : Nat) = 0xF <<< 4 from by decide, and_mask_shiftRight,
    lor_shiftLeft_eq_add hi (show lo < 2 ^ 8 by omega), and_fifteen,
    Nat.shiftRight_eq_div_pow, Nat.shiftRight_eq_div_pow]
  norm_num
  omega

/-- Fourth component of the nibble decomposition of a big-endian byte pair. -/
theorem byte_pair_nib3 (hi lo : Nat) (hlo : lo < 256) :
    (((hi <<< 8 ||| lo) &&& 0x000F) >>> 0) % 256 = lo &&& 0xF := by
  rw [Nat.shiftRight_zero, lor_shiftLeft_eq_add hi (show lo < 2 ^ 8 by omega),
    and_fifteen, and_fifteen]
  norm_num
  omega

/-- Recombining the four nibbles of a big-endian byte pair restores the
16-bit word. -/
theorem byte_pair_recombine (hi lo : Nat) (hlo : lo < 256) :
    ((hi >>> 4) <<< 12) ||| ((hi &&& 0xF) <<< 8) ||| ((lo >>> 4) <<< 4) ||| (lo &&& 0xF)
      = (hi <<< 8) ||| lo := by
  rw [Nat.or_assoc, Nat.or_assoc]
  rw [lor_shiftLeft_eq_add (lo >>> 4) (show lo &&& 0xF < 2 ^ 4 by
    rw [and_fifteen]; omega)]
  have hinner : 2 ^ 4 * (lo >>> 4) + (lo &&& 0xF) = lo := by
    rw [and_fifteen, Nat.shiftRight_eq_div_pow]; omega
  rw [hinner]
  rw [lor_shiftLeft_eq_add (hi &&& 0xF) (show lo < 2 ^ 8 by omega)]
  rw [lor_shiftLeft_eq_add (hi >>> 4) (show 2 ^ 8 * (hi &&& 0xF) + lo < 2 ^ 12 by
    rw [and_fifteen]; omega)]
  rw [lor_shiftLeft_eq_add hi (show lo < 2 ^ 8 by omega)]
  rw [and_fifteen, Nat.shiftRight_eq_div_pow]
  norm_num
  omega

/-- Each masked-shifted-truncated nibble component is at most `0xF`,
provided the mask shifted down is at most `0xF`. -/
theorem masked_component_le {m k : Nat} (w : Nat) (hm : m >>> k ≤ 0xF) :
    ((w &&& m) >>> k) % 256 ≤ 0xF := by
  have h1 : (w &&& m) >>> k ≤ m >>> k := by
    rw [Nat.shiftRight_eq_div_pow, Nat.shiftRight_eq_div_pow]
    exact Nat.div_le_div_right Nat.and_le_right
  exact le_trans (le_trans (Nat.mod_le _ _) h1) hm

/-! ### Claim theorems -/

/-- C5: For every `u16` input, constructing an `Addr` via `Addr::new` or the
`From<u16>` conversion always succeeds (both are total functions that agree)
and yields the input masked to its low 12 bits: the stored value equals
`input & 0x0FFF` (equivalently `input mod 4096`) and is therefore at most
`0xFFF`; high bits are dropped silently, never reported as an error. -/
theorem addr_construction_masks (bits : Nat) (hbits : bits < 65536) :
    Addr.new bits = Addr.fromU16 bits ∧
    (Addr.fromU16 bits).val = bits &&& 0x0FFF ∧
    (Addr.fromU16 bits).val = bits % 4096 ∧
    (Addr.fromU16 bits).val ≤ 0xFFF :=
  ⟨rfl, rfl, and_fff bits, Nat.and_le_right⟩

/-- Witness for C5 at the concrete input `0xBEEF` (the repository's own
unit test value: `Addr::from(0xBEEF)` stores `0xEEF`). -/
theorem addr_construction_masks_witness :
    (0xBEEF : Nat) < 65536 ∧
    (Addr.new 0xBEEF = Addr.fromU16 0xBEEF ∧
     (Addr.fromU16 0xBEEF).val = 0xBEEF &&& 0x0FFF ∧
     (Addr.fromU16 0xBEEF).val = 0xBEEF % 4096 ∧
     (Addr.fromU16 0xBEEF).val ≤ 0xFFF) :=
  ⟨by decide, addr_construction_masks 0xBEEF (by decide)⟩

/-- C6: For every `u8` input, constructing a `Nibble` yields the input
masked to its low 4 bits (a value in 0–15), and consequently indexing the
16-entry general-purpose register file by any `Nibble`, for read or write,
is always in range and never fails. -/
theorem nibble_mask_reg_index (bits : Nat) (hbits : bits < 256)
    (regs : Regs) (value : Byte) :
    Nibble.new bits = Nibble.fromU8 bits ∧
    (Nibble.fromU8 bits).val = bits &&& 0x0F ∧
    (Nibble.fromU8 bits).val = bits % 16 ∧
    (Nibble.fromU8 bits).val < 16 ∧
    (regs.getNib? (Nibble.fromU8 bits)).isSome ∧
    (regs.setNib? (Nibble.fromU8 bits) value).isSome := by
  have hv : (Nibble.fromU8 bits).val = bits % 16 := and_fifteen bits
  have hlt : (Nibble.fromU8 bits).val < 16 := by rw [hv]; omega
  have hlen : (Nibble.fromU8 bits).toUsize < regs.data.length := by
    rw [regs.size_eq]; exact hlt
  refine ⟨rfl, rfl, hv, hlt, ?_, ?_⟩
  · unfold Regs.getNib?
    rw [List.getElem?_eq_getElem hlen]
    rfl
  · unfold Regs.setNib?
    rw [dif_pos hlen]
    rfl

/-- Witness for C6 at the concrete input `0xAF` (the repository's own unit
test value: `Nibble::from(0xAF)` stores `0x0F`), register file all zero,
value `0x07`. -/
theorem nibble_mask_reg_index_witness :
    (0xAF : Nat) < 256 ∧
    (Nibble.new 0xAF = Nibble.fromU8 0xAF ∧
     (Nibble.fromU8 0xAF).val = 0xAF &&& 0x0F ∧
     (Nibble.fromU8 0xAF).val = 0xAF % 16 ∧
     (Nibble.fromU8 0xAF).val < 16 ∧
     (Regs.default.getNib? (Nibble.fromU8 0xAF)).isSome ∧
     (Regs.default.setNib? (Nibble.fromU8 0xAF) 0x07).isSome) :=
  ⟨by decide, nibble_mask_reg_index 0xAF (by decide) Regs.default 0x07⟩

/-- C8: For every index strictly below 4096 — in particular for every value
obtained as `usize::from` of an `Addr`, since an `Addr` is masked to 12
bits on construction — a single-byte read and a single-byte write on `Ram`
are in bounds and succeed. -/
theorem ram_access_in_bounds (ram : Ram) (index value bits : Nat)
    (hindex : index < 4096) (hbits : bits < 65536) :
    (ram.get? index).isSome ∧ (ram.set? index value).isSome ∧
    (Addr.fromU16 bits).toUsize < 4096 := by
  have hlen : index < ram.data.length := by rw [ram.size_eq]; exact hindex
  refine ⟨?_, ?_, ?_⟩
  · unfold Ram.get?
    rw [List.getElem?_eq_getElem hlen]
    rfl
  · unfold Ram.set?
    rw [dif_pos hlen]
    rfl
  · exact Nat.lt_of_le_of_lt Nat.and_le_right (by norm_num)

/-- Witness for C8: reading and writing the zero-filled memory at address
`0x200`, and the address derived from the out-of-range word `0xBEEF`. -/
theorem ram_access_in_bounds_witness :
    (0x200 : Nat) < 4096 ∧ (0xBEEF : Nat) < 65536 ∧
    ((Ram.default.get? 0x200).isSome ∧
     (Ram.default.set? 0x200 0xAB).isSome ∧
     (Addr.fromU16 0xBEEF).toUsize < 4096) :=
  ⟨by decide, by decide,
    ram_access_in_bounds Ram.default 0x200 0xAB 0xBEEF (by decide) (by decide)⟩

/-- C9: At machine initialization, memory and registers are zero-filled and
the program counter is set to the program-start address `0x200`: a newly
constructed `Ram` has all 4096 bytes equal to 0, a newly constructed
register file has all 16 general-purpose registers equal to 0, and the
machine starts with `pc = PROGRAM_START = 0x200`. -/
theorem init_zeroed_pc_start (i j : Nat) (hi : i < RAM_SIZE)
    (hj : j < NUM_GP_REGS) :
    Ram.default.get? i = some 0x00 ∧ Ram.new = Ram.default ∧
    Regs.default.getU8? j = some 0x00 ∧ Regs.new = Regs.default ∧
    PROGRAM_START = 0x200 ∧ Chip8.init.pc = PROGRAM_START ∧
    Chip8.init.ram = Ram.default ∧ Chip8.init.regs = Regs.default := by
  refine ⟨?_, rfl, ?_, rfl, rfl, rfl, rfl, rfl⟩
  · exact List.getElem?_replicate_of_lt hi
  · exact List.getElem?_replicate_of_lt hj

/-- Witness for C9 at the last reserved memory address `0x3FF` and the flag
register index `0xF`. -/
theorem init_zeroed_pc_start_witness :
    (0x3FF : Nat) < RAM_SIZE ∧ (0xF : Nat) < NUM_GP_REGS ∧
    (Ram.default.get? 0x3FF = some 0x00 ∧ Ram.new = Ram.default ∧
     Regs.default.getU8? 0xF = some 0x00 ∧ Regs.new = Regs.default ∧
     PROGRAM_START = 0x200 ∧ Chip8.init.pc = PROGRAM_START ∧
     Chip8.init.ram = Ram.default ∧ Chip8.init.regs = Regs.default) :=
  ⟨by decide, by decide, init_zeroed_pc_start 0x3FF 0xF (by decide) (by decide)⟩

/-- C7: OpCode decomposition into four nibbles is lossless: for every pair
of bytes `(hi, lo)`, the OpCode built big-endian from them decomposes via
`to_match_tuple` into `(hi >> 4, hi & 0xF, lo >> 4, lo & 0xF)`, and
recombining these nibbles as `(n0 << 12) | (n1 << 8) | (n2 << 4) | n3`
gives back the original 16-bit word `(hi << 8) | lo`. -/
theorem opcode_nibble_roundtrip (hi lo : Nat) (hhi : hi < 256) (hlo : lo < 256) :
    (OpCode.fromBytes hi lo).val = (hi <<< 8) ||| lo ∧
    (OpCode.fromBytes hi lo).to_match_tuple
      = (hi >>> 4, hi &&& 0xF, lo >>> 4, lo &&& 0xF) ∧
    ((hi >>> 4) <<< 12) ||| ((hi &&& 0xF) <<< 8) ||| ((lo >>> 4) <<< 4) ||| (lo &&& 0xF)
      = (hi <<< 8) ||| lo := by
  refine ⟨rfl, ?_, byte_pair_recombine hi lo hlo⟩
  unfold OpCode.to_match_tuple OpCode.toTuple OpCode.fromBytes
  simp only [Prod.mk.injEq]
  exact ⟨byte_pair_nib0 hi lo hhi hlo, byte_pair_nib1 hi lo hlo,
    byte_pair_nib2 hi lo hlo, byte_pair_nib3 hi lo hlo⟩

/-- Witness for C7 at the byte pair `(0xFA, 0xCE)` (the pair used in
`main.rs`): the tuple is `(0xF, 0xA, 0xC, 0xE)` and recombination gives
back `0xFACE`. -/
theorem opcode_nibble_roundtrip_witness :
    (0xFA : Nat) < 256 ∧ (0xCE : Nat) < 256 ∧
    ((OpCode.fromBytes 0xFA 0xCE).val = (0xFA <<< 8) ||| 0xCE ∧
     (OpCode.fromBytes 0xFA 0xCE).to_match_tuple
       = (0xFA >>> 4, 0xFA &&& 0xF, 0xCE >>> 4, 0xCE &&& 0xF) ∧
     ((0xFA >>> 4) <<< 12) ||| ((0xFA &&& 0xF) <<< 8)
         ||| ((0xCE >>> 4) <<< 4) ||| (0xCE &&& 0xF)
       = (0xFA <<< 8) ||| 0xCE) :=
  ⟨by decide, by decide, opcode_nibble_roundtrip 0xFA 0xCE (by decide) (by decide)⟩

/-- C10: For every OpCode, each of the four `u8` components returned by
`to_match_tuple` is at most `0xF`; hence using any such component as a `u8`
index into the 16-entry general-purpose register file is always in bounds,
even though the `u8` indexing operation itself is unchecked. -/
theorem opcode_tuple_components_bounded (w : Nat) (hw : w < 65536)
    (regs : Regs) :
    ((OpCode.mk w).to_match_tuple.1 ≤ 0xF ∧
     (OpCode.mk w).to_match_tuple.2.1 ≤ 0xF ∧
     (OpCode.mk w).to_match_tuple.2.2.1 ≤ 0xF ∧
     (OpCode.mk w).to_match_tuple.2.2.2 ≤ 0xF) ∧
    ((regs.getU8? (OpCode.mk w).to_match_tuple.1).isSome ∧
     (regs.getU8? (OpCode.mk w).to_match_tuple.2.1).isSome ∧
     (regs.getU8? (OpCode.mk w).to_match_tuple.2.2.1).isSome ∧
     (regs.getU8? (OpCode.mk w).to_match_tuple.2.2.2).isSome) := by
  have h0 : ((w &&& 0xF000) >>> 12) % 256 ≤ 0xF :=
    masked_component_le w (by decide)
  have h1 : ((w &&& 0x0F00) >>> 8) % 256 ≤ 0xF :=
    masked_component_le w (by decide)
  have h2 : ((w &&& 0x00F0) >>> 4) % 256 ≤ 0xF :=
    masked_component_le w (by decide)
  have h3 : ((w &&& 0x000F) >>> 0) % 256 ≤ 0xF :=
    masked_component_le w (by decide)
  have hs : ∀ idx : Nat, idx < 16 → (regs.getU8? idx).isSome := by
    intro idx hidx
    unfold Regs.getU8?
    rw [List.getElem?_eq_getElem (by rw [regs.size_eq]; exact hidx)]
    rfl
  exact ⟨⟨h0, h1, h2, h3⟩,
    hs _ (Nat.lt_succ_of_le h0), hs _ (Nat.lt_succ_of_le h1),
    hs _ (Nat.lt_succ_of_le h2), hs _ (Nat.lt_succ_of_le h3)⟩

/-- Witness for C10 at the opcode word `0xFACE` with the zero-filled
register file. -/
theorem opcode_tuple_components_bounded_witness :
    (0xFACE : Nat) < 65536 ∧
    (((OpCode.mk 0xFACE).to_match_tuple.1 ≤ 0xF ∧
      (OpCode.mk 0xFACE).to_match_tuple.2.1 ≤ 0xF ∧
      (OpCode.mk 0xFACE).to_match_tuple.2.2.1 ≤ 0xF ∧
      (OpCode.mk 0xFACE).to_match_tuple.2.2.2 ≤ 0xF) ∧
     ((Regs.default.getU8? (OpCode.mk 0xFACE).to_match_tuple.1).isSome ∧
      (Regs.default.getU8? (OpCode.mk 0xFACE).to_match_tuple.2.1).isSome ∧
      (Regs.default.getU8? (OpCode.mk 0xFACE).to_match_tuple.2.2.1).isSome ∧
      (Regs.default.getU8? (OpCode.mk 0xFACE).to_match_tuple.2.2.2).isSome)) :=
  ⟨by decide, opcode_tuple_components_bounded 0xFACE (by decide) Regs.default⟩

/-- C2: `decode` is a total function over 16-bit words (witnessed here by
the fact that the embedded `OpCode.decode`, a faithful translation of the
Rust match including its catch-all arm, is a total Lean function, and that
every word lands in one of the four arms), and any word whose nibble
pattern is not in the recognized set is mapped to the `"???"` instruction,
which is logged as a warning in Rust and is never fatal: executing it
returns the machine state with registers and memory (and everything else)
unchanged. -/
theorem decode_total_unknown_noop (w : Nat) (hw : w < 65536) (s : Chip8) :
    ((OpCode.mk w).decode.name = "CLS" ∨ (OpCode.mk w).decode.name = "RET" ∨
      (OpCode.mk w).decode.name = "SYS") ∨
    ((OpCode.mk w).decode.name = "???" ∧
      ∃ s', (OpCode.mk w).decode.instruction s (OpCode.mk w).decode.operands
              = some s' ∧
        s'.regs = s.regs ∧ s'.ram = s.ram) := by
  unfold OpCode.decode
  split
  · left; left; rfl
  · left; right; left; rfl
  · left; right; right; rfl
  · right
    exact ⟨rfl, s, rfl, rfl, rfl⟩

/-- Witness for C2 at the unrecognized word `0x1234` (the `1nnn` pattern,
which the code does not implement) executed from the initial state. -/
theorem decode_total_unknown_noop_witness :
    (0x1234 : Nat) < 65536 ∧
    (((OpCode.mk 0x1234).decode.name = "CLS" ∨
      (OpCode.mk 0x1234).decode.name = "RET" ∨
      (OpCode.mk 0x1234).decode.name = "SYS") ∨
     ((OpCode.mk 0x1234).decode.name = "???" ∧
      ∃ s', (OpCode.mk 0x1234).decode.instruction Chip8.init
              (OpCode.mk 0x1234).decode.operands = some s' ∧
        s'.regs = Chip8.init.regs ∧ s'.ram = Chip8.init.ram)) :=
  ⟨by decide, decode_total_unknown_noop 0x1234 (by decide) Chip8.init⟩

/-- A register file with `V0 = 0xFF` and `V1 = 0x01`, the state named by the
spec's ADD test vector. -/
def sampleRegs : Regs :=
  ⟨0xFF :: 0x01 :: List.replicate 14 0x00, rfl⟩

/-- A machine state carrying `sampleRegs`. -/
def sampleState : Chip8 :=
  ⟨Ram.new, sampleRegs, PROGRAM_START⟩

/-- C1 (code bug): decoding the `1nnn`-pattern word `0x1234` does not
produce a `"JP"` instruction: the dispatch falls through to the catch-all
`"???"`/`not_implemented` arm, and the documented `jump` handler itself is
`todo!()` (embedded as `none`), so no execution path sets the program
counter to `0x234`. -/
theorem decode_1nnn_unimplemented :
    (OpCode.fromBytes 0x12 0x34).decode.name = "???" ∧
    ¬ (OpCode.fromBytes 0x12 0x34).decode.name = "JP" ∧
    jump Chip8.init (Operands.Address 0x234) = none :=
  ⟨rfl, by decide, rfl⟩

/-- C3 (code bug): from the spec's test state `V0 = 0xFF`, `V1 = 0x01`, the
embedded `add` handler (`8xy4 - ADD Vx, Vy`, whose Rust body is `todo!()`)
produces no result at all rather than the documented `Vx = 0x00`, `VF = 1`;
moreover `decode` does not even dispatch the `8xy4` word `0x8014` to it. -/
theorem add_8xy4_unimplemented :
    sampleRegs.getU8? 0x0 = some 0xFF ∧
    sampleRegs.getU8? 0x1 = some 0x01 ∧
    add sampleState (Operands.Regs 0x0 0x1) = none ∧
    (OpCode.fromBytes 0x80 0x14).decode.name = "???" :=
  ⟨rfl, rfl, rfl, rfl⟩

/-- C4: the bulk program-load operation fails with a capacity error exactly
when the byte sequence is longer than total memory size minus the start
address, and on failure it produces no new memory state at all; loading
exactly `RAM_SIZE - PROGRAM_START` bytes succeeds, while one byte more
fails with the capacity error, leaving memory untouched. -/
theorem load_capacity_exact (ram : Ram) (bytes : List Byte)
    (start_addr : Nat) (hstart : start_addr < 65536) :
    ((∃ ram', ram.load bytes start_addr = Except.ok ram') ↔
      bytes.length ≤ RAM_SIZE - start_addr) ∧
    (bytes.length > RAM_SIZE - start_addr →
      ram.load bytes start_addr = Except.error LoadError.capacity) ∧
    (∃ ram', Ram.default.load (List.replicate (RAM_SIZE - PROGRAM_START) 0xAB)
        PROGRAM_START = Except.ok ram') ∧
    Ram.default.load (List.replicate (RAM_SIZE - PROGRAM_START + 1) 0xAB)
        PROGRAM_START = Except.error LoadError.capacity := by
  have hgen : ∀ (r : Ram) (bs : List Byte) (sa : Nat),
      ((∃ r', r.load bs sa = Except.ok r') ↔ bs.length ≤ RAM_SIZE - sa) ∧
      (bs.length > RAM_SIZE - sa →
        r.load bs sa = Except.error LoadError.capacity) := by
    intro r bs sa
    unfold Ram.load
    split
    · rename_i hgt
      constructor
      · constructor
        · rintro ⟨r', hr'⟩
          exact absurd hr' (by simp)
        · intro hle
          omega
      · intro _
        rfl
    · rename_i hgt
      constructor
      · constructor
        · intro _
          omega
        · intro _
          exact ⟨_, rfl⟩
      · intro hcontra
        omega
  refine ⟨(hgen ram bytes start_addr).1, (hgen ram bytes start_addr).2, ?_, ?_⟩
  · exact ((hgen Ram.default _ PROGRAM_START).1).2 (by
      rw [List.length_replicate])
  · exact (hgen Ram.default _ PROGRAM_START).2 (by
      rw [List.length_replicate]; unfold RAM_SIZE PROGRAM_START; omega)

/-- Witness for C4: a three-byte ROM loaded at the program start of the
zero-filled memory. -/
theorem load_capacity_exact_witness :
    (0x200 : Nat) < 65536 ∧
    (((∃ ram', Ram.default.load [0xDE, 0xAD, 0xBE] 0x200 = Except.ok ram') ↔
       ([0xDE, 0xAD, 0xBE] : List Byte).length ≤ RAM_SIZE - 0x200) ∧
     (([0xDE, 0xAD, 0xBE] : List Byte).length > RAM_SIZE - 0x200 →
       Ram.default.load [0xDE, 0xAD, 0xBE] 0x200
         = Except.error LoadError.capacity) ∧
     (∃ ram', Ram.default.load (List.replicate (RAM_SIZE - PROGRAM_START) 0xAB)
         PROGRAM_START = Except.ok ram') ∧
     Ram.default.load (List.replicate (RAM_SIZE - PROGRAM_START + 1) 0xAB)
         PROGRAM_START = Except.error LoadError.capacity) :=
  ⟨by decide, load_capacity_exact Ram.default [0xDE, 0xAD, 0xBE] 0x200 (by decide)⟩
